import Mathlib

/-!
Verification of the file-resolution and data-normalization core of the
polar-plant dashboard (Python/Streamlit, three near-duplicate revisions).

Strings are modelled as lists of Unicode code points (`List Nat`), so that
Unicode normalization (NFC/NFD), substring search, extension handling and
lexicographic comparison are all explicit and executable.  Filesystem state
is a directory listing; file reading is modelled by the outcomes the Python
code distinguishes with `try`/`except` (`Except PyErr`).
-/

namespace PolarPlant

/-! ## Code points, lexicographic order, substring search -/

/-- Lexicographic `≤` on code-point strings, exactly Python's `str` comparison
(`s <= t` compares code points pointwise, a strict prefix is smaller). -/
def lexLe : List Nat → List Nat → Bool
  | [], _ => true
  | _ :: _, [] => false
  | a :: as, b :: bs => if a < b then true else if b < a then false else lexLe as bs

theorem lexLe_refl (s : List Nat) : lexLe s s = true := by
  induction s with
  | nil => rfl
  | cons a as ih => simp [lexLe, ih]

theorem lexLe_total (a b : List Nat) : lexLe a b = true ∨ lexLe b a = true := by
  induction a generalizing b with
  | nil => left; rfl
  | cons x xs ih =>
    cases b with
    | nil => right; rfl
    | cons y ys =>
      rcases Nat.lt_trichotomy x y with h | h | h
      · left; simp [lexLe, h]
      · subst h
        rcases ih ys with h' | h'
        · left; simp [lexLe, h']
        · right; simp [lexLe, h']
      · right; simp [lexLe, h]

theorem lexLe_trans {a b c : List Nat} (h1 : lexLe a b = true) (h2 : lexLe b c = true) :
    lexLe a c = true := by
  induction a generalizing b c with
  | nil => rfl
  | cons x xs ih =>
    cases b with
    | nil => simp [lexLe] at h1
    | cons y ys =>
      cases c with
      | nil => simp [lexLe] at h2
      | cons z zs =>
        simp only [lexLe] at h1 h2 ⊢
        rcases Nat.lt_trichotomy x y with hxy | hxy | hxy
        · rcases Nat.lt_trichotomy y z with hyz | hyz | hyz
          · have : x < z := Nat.lt_trans hxy hyz
            simp [this]
          · subst hyz; simp [hxy]
          · exfalso
            simp only [if_neg (Nat.lt_asymm hyz), if_pos hyz] at h2
            exact Bool.noConfusion h2
        · subst hxy
          rcases Nat.lt_trichotomy x z with hyz | hyz | hyz
          · simp [hyz]
          · subst hyz
            simp only [Nat.lt_irrefl, if_neg (by omega : ¬ x < x)] at h1 h2 ⊢
            exact ih h1 h2
          · exfalso
            simp only [if_neg (Nat.lt_asymm hyz), if_pos hyz] at h2
            exact Bool.noConfusion h2
        · exfalso
          simp only [if_neg (Nat.lt_asymm hxy), if_pos hxy] at h1
          exact Bool.noConfusion h1

theorem lexLe_antisymm {a b : List Nat} (h1 : lexLe a b = true) (h2 : lexLe b a = true) :
    a = b := by
  induction a generalizing b with
  | nil =>
    cases b with
    | nil => rfl
    | cons y ys => simp [lexLe] at h2
  | cons x xs ih =>
    cases b with
    | nil => simp [lexLe] at h1
    | cons y ys =>
      simp only [lexLe] at h1 h2
      rcases Nat.lt_trichotomy x y with hxy | hxy | hxy
      · exfalso
        simp only [if_neg (Nat.lt_asymm hxy), if_pos hxy] at h2
        exact Bool.noConfusion h2
      · subst hxy
        simp only [if_neg (by omega : ¬ x < x)] at h1 h2
        rw [ih h1 h2]
      · exfalso
        simp only [if_neg (Nat.lt_asymm hxy), if_pos hxy] at h1
        exact Bool.noConfusion h1

/-- Boolean test for `xs <+: ys` (Python `str.startswith`). -/
def isPrefixOfB : List Nat → List Nat → Bool
  | [], _ => true
  | _ :: _, [] => false
  | a :: as, b :: bs => a == b && isPrefixOfB as bs

/-- Boolean test for `xs <:+: ys`, modelling Python's substring operator
`xs in ys` on strings. -/
def isInfixOfB (xs : List Nat) : List Nat → Bool
  | [] => xs.isEmpty
  | y :: ys => isPrefixOfB xs (y :: ys) || isInfixOfB xs ys

theorem isPrefixOfB_iff (xs ys : List Nat) : isPrefixOfB xs ys = true ↔ xs <+: ys := by
  induction xs generalizing ys with
  | nil => simp [isPrefixOfB]
  | cons a as ih =>
    cases ys with
    | nil => simp [isPrefixOfB]
    | cons b bs => simp [isPrefixOfB, ih, And.comm]

theorem isInfixOfB_iff (xs ys : List Nat) : isInfixOfB xs ys = true ↔ xs <:+: ys := by
  induction ys with
  | nil =>
    simp only [isInfixOfB, List.isEmpty_iff, List.infix_nil]
  | cons y ys ih =>
    rw [ List.infix_cons_iff]
    simp [isInfixOfB, isPrefixOfB_iff, ih]

theorem isInfixOfB_nil_left (ys : List Nat) : isInfixOfB [] ys = true := by
  cases ys <;> simp [isInfixOfB, isPrefixOfB]

/-! ## Unicode normalization (NFC / NFD)

The source calls `unicodedata.normalize("NFC" | "NFD", s)`.  For the character
repertoire this program handles — precomposed Hangul syllables plus ASCII —
canonical normalization is exactly the standard Unicode Hangul
composition/decomposition algorithm (UAX #15 §3.12): NFD replaces every
syllable in U+AC00..U+D7A3 by its conjoining jamo L V [T], and NFC is canonical
composition of the decomposition.  Characters outside the Hangul ranges are
left untouched, as `unicodedata.normalize` leaves ASCII untouched. -/

def SBase : Nat := 44032
def LBase : Nat := 4352
def VBase : Nat := 4449
def TBase : Nat := 4519
def SCount : Nat := 11172

def isHangulSyllable (c : Nat) : Bool := SBase ≤ c && c < SBase + SCount
def isLJamo (c : Nat) : Bool := LBase ≤ c && c ≤ 4370
def isVJamo (c : Nat) : Bool := VBase ≤ c && c ≤ 4469
def isTJamo (c : Nat) : Bool := 4520 ≤ c && c ≤ 4546

/-- Canonical (Hangul) decomposition of a single code point. -/
def decomposeChar (c : Nat) : List Nat :=
  if isHangulSyllable c then
    let si := c - SBase
    let t := si % 28
    if t = 0 then [LBase + si / 588, VBase + (si % 588) / 28]
    else [LBase + si / 588, VBase + (si % 588) / 28, TBase + t]
  else [c]

/-- `unicodedata.normalize("NFD", s)` on the Hangul + ASCII repertoire. -/
def nfd : List Nat → List Nat
  | [] => []
  | c :: cs => decomposeChar c ++ nfd cs

/-- Canonical composition pass: recombine L V [T] jamo runs into syllables. -/
def composeRun : List Nat → List Nat
  | [] => []
  | [c] => [c]
  | c :: v :: rest2 =>
    if isLJamo c && isVJamo v then
      let lv := SBase + ((c - LBase) * 21 + (v - VBase)) * 28
      match rest2 with
      | [] => [lv]
      | t :: rest3 =>
        if isTJamo t then (lv + (t - TBase)) :: composeRun rest3
        else lv :: composeRun (t :: rest3)
    else c :: composeRun (v :: rest2)

/-- `unicodedata.normalize("NFC", s)`: canonical decomposition followed by
canonical composition. -/
def nfc (s : List Nat) : List Nat := composeRun (nfd s)

/-! ## Filenames: extension, stem, lowercasing -/

/-- ASCII lowercasing of one code point.  Python's `str.lower` on the
repertoire this program handles (ASCII + Hangul) lowercases exactly the
ASCII letters `A`-`Z` and leaves every other code point unchanged. -/
def lowerCp (c : Nat) : Nat := if 65 ≤ c ∧ c ≤ 90 then c + 32 else c

/-- `str.lower` on a code-point string. -/
def lowerStr (s : List Nat) : List Nat := s.map lowerCp

def dotCp : Nat := 46

/-- Index of the last `.` in `name` (Python `str.rfind('.')`), if any. -/
def rfindDot (name : List Nat) : Option Nat :=
  match name.reverse.findIdx? (· == dotCp) with
  | some j => some (name.length - 1 - j)
  | none => none

/-- `pathlib.PurePath.suffix`: the extension from the final dot, empty when
the name has no dot, starts with its only dot, or ends with it. -/
def suffixOf (name : List Nat) : List Nat :=
  match rfindDot name with
  | some i => if 0 < i ∧ i + 1 < name.length then name.drop i else []
  | none => []

/-- `pathlib.PurePath.stem`: the filename without its extension. -/
def stemOf (name : List Nat) : List Nat :=
  match rfindDot name with
  | some i => if 0 < i ∧ i + 1 < name.length then name.take i else name
  | none => name

/-! ## Directory model -/

/-- One entry of the data directory: its filename (full name, extension
included) and whether it is a regular file (`Path.is_file`). -/
structure DirEntry where
  name : List Nat
  isFile : Bool
deriving DecidableEq

/-- The state of the data directory at query time: whether the directory
exists (`DATA_DIR.exists()`) and its entries in the order `Path.iterdir`
yields them. -/
structure DirState where
  present : Bool
  entries : List DirEntry
deriving DecidableEq

/-- Exceptions the Python code distinguishes. -/
inductive PyErr where
  | unicodeDecodeError
  | fileNotFoundError
  | otherError
deriving DecidableEq

/-- `Path.iterdir()`: raises `FileNotFoundError` when the directory is
absent, otherwise yields the entries. -/
def listdir (dir : DirState) : Except PyErr (List DirEntry) :=
  if dir.present then .ok dir.entries else .error .fileNotFoundError

/-! ## File resolver (`main.py`, `find_file_by_school_and_keyword`) -/

/-- The four-way normalization test of `main.py` (lines 163-170): the key, in
either normalization form, occurs as a substring of the name, in either
normalization form. -/
def matches4 (key name : List Nat) : Bool :=
  isInfixOfB (nfc key) (nfc name) || isInfixOfB (nfd key) (nfd name) ||
  isInfixOfB (nfc key) (nfd name) || isInfixOfB (nfd key) (nfc name)

/-- The per-entry acceptance test of the `main.py` resolver: a regular file,
extension equal to the requested one after lowercasing both, and both the
school key and the keyword pass the four-way normalization test. -/
def acceptedEntry (school keyword ext : List Nat) (p : DirEntry) : Bool :=
  p.isFile && (lowerStr (suffixOf p.name) == lowerStr ext) &&
    matches4 school p.name && matches4 keyword p.name

/-- The `for p in sorted(...)` loop body of `find_file_by_school_and_keyword`:
skip non-files, skip extension mismatches (case-folded), return the first
entry on which both four-way tests succeed. -/
def findLoop (school keyword ext : List Nat) : List DirEntry → Option (List Nat)
  | [] => none
  | p :: rest =>
    if p.isFile = false then findLoop school keyword ext rest
    else if (lowerStr (suffixOf p.name) == lowerStr ext) = false then
      findLoop school keyword ext rest
    else if matches4 school p.name && matches4 keyword p.name then some p.name
    else findLoop school keyword ext rest

/-- Python's `sorted(entries, key=lambda x: x.name)`: names compared as
strings, i.e. lexicographically by code point. -/
def entryLe (a b : DirEntry) : Prop := lexLe a.name b.name = true

instance : DecidableRel entryLe := fun a b =>
  inferInstanceAs (Decidable (lexLe a.name b.name = true))

instance : IsTotal DirEntry entryLe := ⟨fun a b => lexLe_total a.name b.name⟩

instance : IsTrans DirEntry entryLe := ⟨fun _ _ _ => lexLe_trans⟩

/-- `main.py` lines 142-175, `find_file_by_school_and_keyword`: return `None`
when the data directory is absent, otherwise scan the entries sorted by name
and return the first accepted one. -/
def find_file_by_school_and_keyword (dir : DirState) (school keyword ext : List Nat) :
    Except PyErr (Option (List Nat)) :=
  if dir.present = false then .ok none
  else (listdir dir).map fun es => findLoop school keyword ext (es.insertionSort entryLe)

/-- The spec's `resolve(key, extension)` contract, instantiated by the
`main.py` resolver with an empty keyword (the empty string is a substring of
every name, so only the key constrains the match). -/
def resolve (dir : DirState) (key ext : List Nat) : Except PyErr (Option (List Nat)) :=
  find_file_by_school_and_keyword dir key [] ext

/-! ## The `(test2)main.py` resolver (`load_school_env_data`, lines 51-71)

It differs from the main revision: entries are scanned in raw `iterdir`
order, the suffix is compared to `".csv"` exactly (case-sensitively), and the
school key is matched against the stem rather than the full name. -/

/-- The four-way test as written in `(test2)main.py` lines 65-68 (same
disjuncts, different order, applied to the stem). -/
def matches4Stem (school stem : List Nat) : Bool :=
  isInfixOfB (nfc school) (nfc stem) || isInfixOfB (nfc school) (nfd stem) ||
  isInfixOfB (nfd school) (nfc stem) || isInfixOfB (nfd school) (nfd stem)

def csvExt : List Nat := [46, 99, 115, 118]

/-- The `for file_path in data_dir.iterdir()` loop of `(test2)main.py`. -/
def findCsvLoop (school : List Nat) : List DirEntry → Option (List Nat)
  | [] => none
  | p :: rest =>
    if suffixOf p.name == csvExt then
      if matches4Stem school (stemOf p.name) then some p.name
      else findCsvLoop school rest
    else findCsvLoop school rest

/-- `(test2)main.py` lines 51-71, `load_school_env_data`, up to the path it
hands to `pd.read_csv`: `None` when the directory is absent, else the first
`.csv` entry whose stem passes the four-way test, in `iterdir` order. -/
def load_school_env_data (dir : DirState) (school : List Nat) :
    Except PyErr (Option (List Nat)) :=
  if dir.present = false then .ok none
  else (listdir dir).map fun es => findCsvLoop school es

/-! ## Tables -/

/-- A table value: raw text as read from a delimited file, or a timestamp
produced by datetime parsing (modelled as an absolute time in fixed units). -/
inductive Cell where
  | text (s : List Nat)
  | timestamp (t : Nat)
deriving DecidableEq

/-- An in-memory table (`pandas.DataFrame`): named columns and rows of
cells, row `r` holding the value of column `j` at position `j`. -/
structure DataFrame where
  columns : List (List Nat)
  rows : List (List Cell)
deriving DecidableEq

/-- `DataFrame.empty`: true when any axis has length zero. -/
def dfEmpty (df : DataFrame) : Bool := df.rows.isEmpty || df.columns.isEmpty

/-- The column name `"time"`. -/
def timeName : List Nat := [116, 105, 109, 101]

/-- Position of the `time` column among the column names. -/
def timeIdx (df : DataFrame) : Nat := df.columns.findIdx (· == timeName)

/-- The cell of row `r` in column position `i`. -/
def cellAt (i : Nat) (r : List Cell) : Cell := r.getD i (.text [])

/-- `df[name]` as the list of that column's cells. -/
def getCol (df : DataFrame) (i : Nat) : List Cell := df.rows.map (cellAt i)

/-- `df[name] = col`: replace column position `i` of every row. -/
def setCol (df : DataFrame) (i : Nat) (col : List Cell) : DataFrame :=
  ⟨df.columns, (df.rows.zip col).map fun rc => rc.1.set i rc.2⟩

/-- Datetime parsing of one raw value, modelling `pandas.to_datetime` on a
single element: a nonempty all-digit string denotes a time and parses to its
value, an already-parsed timestamp passes through, anything else fails. -/
def toDatetimeCell : Cell → Option Cell
  | .timestamp t => some (.timestamp t)
  | .text s =>
    if s ≠ [] ∧ ∀ c ∈ s, 48 ≤ c ∧ c ≤ 57 then
      some (.timestamp (s.foldl (fun acc c => acc * 10 + (c - 48)) 0))
    else none

/-- `pandas.to_datetime` over a column: raises (returns `none`) as soon as
any element fails to parse, otherwise converts every element. -/
def toDatetimeCol : List Cell → Option (List Cell)
  | [] => some []
  | c :: cs =>
    match toDatetimeCell c, toDatetimeCol cs with
    | some c', some cs' => some (c' :: cs')
    | _, _ => none

/-- Order on parsed time cells used by `sort_values("time")`.  Timestamps
compare by value; the remaining cases only make the relation total. -/
def cellLe : Cell → Cell → Bool
  | .timestamp a, .timestamp b => decide (a ≤ b)
  | .timestamp _, .text _ => true
  | .text _, .timestamp _ => false
  | .text s, .text t => lexLe s t

def cellLeP (a b : Cell) : Prop := cellLe a b = true

instance : DecidableRel cellLeP := fun a b =>
  inferInstanceAs (Decidable (cellLe a b = true))

/-- Row comparison by the cell in column position `i`. -/
def rowLeP (i : Nat) (r s : List Cell) : Prop := cellLeP (cellAt i r) (cellAt i s)

instance (i : Nat) : DecidableRel (rowLeP i) := fun r s =>
  inferInstanceAs (Decidable (cellLeP (cellAt i r) (cellAt i s)))

theorem cellLe_total (a b : Cell) : cellLe a b = true ∨ cellLe b a = true := by
  cases a with
  | text s =>
    cases b with
    | text t => exact lexLe_total s t
    | timestamp t => right; rfl
  | timestamp t =>
    cases b with
    | text s => left; rfl
    | timestamp u =>
      rcases Nat.le_total t u with h | h
      · left; simpa [cellLe]
      · right; simpa [cellLe]

theorem cellLe_trans {a b c : Cell} (h1 : cellLe a b = true) (h2 : cellLe b c = true) :
    cellLe a c = true := by
  cases a <;> cases b <;> cases c <;> simp_all [cellLe]
  · exact lexLe_trans h1 h2
  · omega

instance (i : Nat) : IsTotal (List Cell) (rowLeP i) :=
  ⟨fun r s => cellLe_total (cellAt i r) (cellAt i s)⟩

instance (i : Nat) : IsTrans (List Cell) (rowLeP i) :=
  ⟨fun _ _ _ => cellLe_trans⟩

/-- `df.sort_values` by the column in position `i`. -/
def sortRows (i : Nat) (rows : List (List Cell)) : List (List Cell) :=
  rows.insertionSort (rowLeP i)

/-! ## Tabular loader (`main.py`, `safe_read_csv` and `try_parse_time`) -/

/-- A delimited text file, as the loader can observe it: the outcome of
`pd.read_csv` under each of the two encodings it tries. -/
structure CsvFile where
  utf8sig : Except PyErr DataFrame
  cp949 : Except PyErr DataFrame

/-- `main.py` lines 86-102, `safe_read_csv`: read as `utf-8-sig`; on
`UnicodeDecodeError` retry as `cp949`, returning `None` if that also fails
for any reason; on `FileNotFoundError` return `None`; on any other exception
return `None`.  The outer `Except` layer is the exception channel to the
caller: an `.error` result would mean an exception escapes the function. -/
def safe_read_csv (f : CsvFile) : Except PyErr (Option DataFrame) :=
  match f.utf8sig with
  | .ok t => .ok (some t)
  | .error .unicodeDecodeError =>
    match f.cp949 with
    | .ok t => .ok (some t)
    | .error _ => .ok none
  | .error .fileNotFoundError => .ok none
  | .error .otherError => .ok none

/-- Warnings `try_parse_time` can emit via `st.warning`. -/
inductive TimeWarning where
  | missing
  | parseFailed
deriving DecidableEq

/-- `main.py` lines 105-124, `try_parse_time`: pass `None`/empty tables
through; warn and return the table untouched when the `time` column is
absent; otherwise parse the column with `pd.to_datetime` and sort by it,
returning the original table with a warning if parsing raises. -/
def try_parse_time : Option DataFrame → Option DataFrame × Option TimeWarning
  | none => (none, none)
  | some df =>
    if dfEmpty df then (some df, none)
    else if (df.columns.contains timeName) = false then (some df, some .missing)
    else
      match toDatetimeCol (getCol df (timeIdx df)) with
      | some newCol =>
        let df2 := setCol df (timeIdx df) newCol
        (some ⟨df2.columns, sortRows (timeIdx df2) df2.rows⟩, none)
      | none => (some df, some .parseFailed)

/-! ## Resolver lemmas -/

theorem findLoop_eq (school keyword ext : List Nat) (l : List DirEntry) :
    findLoop school keyword ext l =
      ((l.filter (acceptedEntry school keyword ext)).head?).map DirEntry.name := by
  induction l with
  | nil => rfl
  | cons p rest ih =>
    simp only [findLoop, List.filter_cons]
    rcases hf : p.isFile with _ | _
    · simpa [acceptedEntry, hf] using ih
    · rcases hs : (lowerStr (suffixOf p.name) == lowerStr ext) with _ | _
      · simpa [acceptedEntry, hf, hs] using ih
      · rcases hm : (matches4 school p.name && matches4 keyword p.name) with _ | _
        · simpa [acceptedEntry, hf, hs, Bool.and_assoc, hm] using ih
        · simp [acceptedEntry, hf, hs, Bool.and_assoc, hm]

theorem find_file_eq_ok (dir : DirState) (school keyword ext : List Nat) :
    find_file_by_school_and_keyword dir school keyword ext =
      .ok (if dir.present then
             findLoop school keyword ext (dir.entries.insertionSort entryLe)
           else none) := by
  rcases hp : dir.present with _ | _
  · simp [find_file_by_school_and_keyword, hp]
  · simp [find_file_by_school_and_keyword, listdir, hp, Except.map]

/-- The result of the sorted first-match scan, characterized over the raw
listing: it is `some n` exactly when some accepted entry has name `n` and no
accepted entry has a lexicographically smaller name. -/
theorem sorted_scan_some_iff (acc : DirEntry → Bool) (l0 : List DirEntry) (n : List Nat) :
    (((l0.insertionSort entryLe).filter acc).head?).map DirEntry.name = some n ↔
      (∃ f ∈ l0, acc f = true ∧ f.name = n) ∧
      (∀ f ∈ l0, acc f = true → lexLe n f.name = true) := by
  have hperm : List.Perm (l0.insertionSort entryLe) l0 := List.perm_insertionSort entryLe l0
  have hsorted : List.Sorted entryLe (l0.insertionSort entryLe) :=
    List.sorted_insertionSort entryLe l0
  have hFs : List.Sorted entryLe ((l0.insertionSort entryLe).filter acc) :=
    hsorted.filter acc
  have hFperm : List.Perm ((l0.insertionSort entryLe).filter acc) (l0.filter acc) :=
    hperm.filter acc
  cases hF : (l0.insertionSort entryLe).filter acc with
  | nil =>
    rw [hF] at hFperm
    constructor
    · intro h; simp at h
    · rintro ⟨⟨f, hfmem, hfacc, rfl⟩, -⟩
      have hfF : f ∈ l0.filter acc := List.mem_filter.mpr ⟨hfmem, hfacc⟩
      exact absurd (hFperm.mem_iff.mpr hfF) (List.not_mem_nil f)
  | cons h t =>
    rw [hF] at hFperm hFs
    have hhF : h ∈ l0.filter acc := hFperm.mem_iff.mp (List.mem_cons_self h t)
    have hhmem : h ∈ l0 := (List.mem_filter.mp hhF).1
    have hhacc : acc h = true := (List.mem_filter.mp hhF).2
    have hmin : ∀ f ∈ l0, acc f = true → lexLe h.name f.name = true := by
      intro f hf hfa
      have hfF : f ∈ h :: t :=
        hFperm.mem_iff.mpr (List.mem_filter.mpr ⟨hf, hfa⟩)
      rcases List.mem_cons.mp hfF with rfl | hft
      · exact lexLe_refl _
      · exact List.rel_of_sorted_cons hFs f hft
    constructor
    · intro hsome
      have hn : h.name = n := by simpa using hsome
      subst hn
      exact ⟨⟨h, hhmem, hhacc, rfl⟩, hmin⟩
    · rintro ⟨⟨f0, hf0mem, hf0acc, rfl⟩, hmin'⟩
      have h1 : lexLe f0.name h.name = true := hmin' h hhmem hhacc
      have h2 : lexLe h.name f0.name = true := hmin f0 hf0mem hf0acc
      simpa using lexLe_antisymm h2 h1

theorem find_some_iff {dir : DirState} {school keyword ext n : List Nat} :
    find_file_by_school_and_keyword dir school keyword ext = .ok (some n) ↔
      dir.present = true ∧
      (∃ f ∈ dir.entries, acceptedEntry school keyword ext f = true ∧ f.name = n) ∧
      (∀ f ∈ dir.entries, acceptedEntry school keyword ext f = true →
        lexLe n f.name = true) := by
  rw [find_file_eq_ok]
  rcases hp : dir.present with _ | _
  · simp
  · simp only [if_pos rfl, Except.ok.injEq, true_and]
    rw [findLoop_eq]
    exact sorted_scan_some_iff _ _ _

theorem find_none_iff {dir : DirState} {school keyword ext : List Nat} :
    find_file_by_school_and_keyword dir school keyword ext = .ok none ↔
      dir.present = false ∨
      ∀ f ∈ dir.entries, acceptedEntry school keyword ext f = false := by
  rw [find_file_eq_ok]
  rcases hp : dir.present with _ | _
  · simp
  · have hperm : List.Perm (dir.entries.insertionSort entryLe) dir.entries :=
      List.perm_insertionSort entryLe dir.entries
    simp only [if_pos rfl, Except.ok.injEq, Bool.true_eq_false, false_or]
    rw [findLoop_eq]
    simp only [if_true, Option.map_eq_none', List.head?_eq_none_iff, List.filter_eq_nil_iff]
    constructor
    · intro h f hf
      simpa using h f (hperm.mem_iff.mpr hf)
    · intro h f hf
      simp [h f (hperm.mem_iff.mp hf)]

/-- The resolver never lets an exception escape: whatever the directory
state, it returns a value (`.ok`). -/
theorem find_total (dir : DirState) (school keyword ext : List Nat) :
    ∃ r, find_file_by_school_and_keyword dir school keyword ext = .ok r :=
  ⟨_, find_file_eq_ok dir school keyword ext⟩

/-- The resolver's answer depends only on the multiset of directory entries,
not on the enumeration order `iterdir` happens to produce. -/
theorem find_perm_invariant {d1 d2 : DirState} (school keyword ext : List Nat)
    (hp : d1.present = d2.present) (he : List.Perm d1.entries d2.entries) :
    find_file_by_school_and_keyword d1 school keyword ext =
      find_file_by_school_and_keyword d2 school keyword ext := by
  obtain ⟨r1, h1⟩ := find_total d1 school keyword ext
  obtain ⟨r2, h2⟩ := find_total d2 school keyword ext
  rw [h1, h2]
  cases r1 with
  | some n =>
    have hc := find_some_iff.mp h1
    have h4 : find_file_by_school_and_keyword d2 school keyword ext = .ok (some n) := by
      refine find_some_iff.mpr ⟨hp ▸ hc.1, ?_, ?_⟩
      · obtain ⟨f, hf, hacc, hn⟩ := hc.2.1
        exact ⟨f, he.mem_iff.mp hf, hacc, hn⟩
      · intro f hf hacc
        exact hc.2.2 f (he.mem_iff.mpr hf) hacc
    rw [h2] at h4
    injection h4 with h5
    rw [h5]
  | none =>
    have hc := find_none_iff.mp h1
    have h4 : find_file_by_school_and_keyword d2 school keyword ext = .ok none := by
      refine find_none_iff.mpr ?_
      rcases hc with hc | hc
      · exact Or.inl (hp ▸ hc)
      · exact Or.inr fun f hf => hc f (he.mem_iff.mpr hf)
    rw [h2] at h4
    injection h4 with h5
    rw [h5]

/-- Equality on results of the exception-channel type, decidable so that
concrete runs of the resolver and loader can be checked by evaluation. -/
instance {ε α : Type _} [DecidableEq ε] [DecidableEq α] : DecidableEq (Except ε α)
  | .error a, .error b =>
    if h : a = b then isTrue (by rw [h]) else isFalse fun hc => h (Except.error.inj hc)
  | .error _, .ok _ => isFalse Except.noConfusion
  | .ok _, .error _ => isFalse Except.noConfusion
  | .ok a, .ok b =>
    if h : a = b then isTrue (by rw [h]) else isFalse fun hc => h (Except.ok.inj hc)

theorem matches4_iff (key name : List Nat) : matches4 key name = true ↔
    (nfc key <:+: nfc name ∨ nfd key <:+: nfd name ∨
     nfc key <:+: nfd name ∨ nfd key <:+: nfc name) := by
  simp [matches4, isInfixOfB_iff, or_assoc]

theorem matches4_nil (name : List Nat) : matches4 [] name = true := by
  simp [matches4, nfc, nfd, composeRun, isInfixOfB_nil_left]

theorem findLoop_lower_ext {e1 e2 : List Nat} (h : lowerStr e1 = lowerStr e2)
    (school keyword : List Nat) (l : List DirEntry) :
    findLoop school keyword e1 l = findLoop school keyword e2 l := by
  induction l with
  | nil => rfl
  | cons p rest ih => simp only [findLoop, h, ih]

theorem findCsvLoop_none (school : List Nat) (l : List DirEntry)
    (h : ∀ f ∈ l, suffixOf f.name ≠ csvExt) : findCsvLoop school l = none := by
  induction l with
  | nil => rfl
  | cons p rest ih =>
    have hp : (suffixOf p.name == csvExt) = false := by
      simpa using h p (List.mem_cons_self p rest)
    simp [findCsvLoop, hp, ih fun f hf => h f (List.mem_cons_of_mem p hf)]

/-! ## Concrete data for witnesses and counterexamples -/

/-- The school name `"송도고"` (composed form). -/
def songdo : List Nat := [49569, 46020, 44256]

/-- The school name `"하늘고"` (composed form). -/
def haneul : List Nat := [54616, 45720, 44256]

/-- The school name `"동산고"` (composed form). -/
def dongsan : List Nat := [46041, 49328, 44256]

/-- The keyword `"환경데이터"` (environment data, composed form). -/
def envKeyword : List Nat := [54872, 44221, 45936, 51060, 53552]

/-- The ASCII marker `"_data"`. -/
def dataMark : List Nat := [95, 100, 97, 116, 97]

/-- `"송도고_data.csv"` in composed form. -/
def fName : List Nat := songdo ++ dataMark ++ csvExt

/-- `"송도고_data.csv"` as decomposed on-disk bytes. -/
def fNameNFD : List Nat := nfd fName

/-- `"!송도고_data.csv"`: also matches the key `"송도고"`, and sorts before
`fName` because `!` (33) precedes every Hangul code point. -/
def gName : List Nat := 33 :: fName

/-- `"송도고_환경데이터.CSV"`: extension differing from `".csv"` only in
letter case. -/
def capName : List Nat := songdo ++ [95] ++ envKeyword ++ [46, 67, 83, 86]

/-- `"하늘고_환경데이터.csv"`. -/
def haneulEnvName : List Nat := haneul ++ [95] ++ envKeyword ++ csvExt

/-- `"송도고_환경데이터.csv"`. -/
def songdoEnvName : List Nat := songdo ++ [95] ++ envKeyword ++ csvExt

/-- `(test3)main.py` lines 64-78, `load_school_env_data`: same scan as the
`(test2)` revision but with no directory-existence guard, so `iterdir` can
raise. -/
def load_school_env_data_t3 (dir : DirState) (school : List Nat) :
    Except PyErr (Option (List Nat)) :=
  (listdir dir).map fun es => findCsvLoop school es

/-- Unlike the main resolver, the `(test3)` revision's loader propagates
`FileNotFoundError` when the data directory is absent. -/
theorem load_t3_missing_dir_raises :
    load_school_env_data_t3 ⟨false, []⟩ songdo = .error .fileNotFoundError := by decide

/-- Unlike the main resolver, the `(test2)` revision's scan is sensitive to
the enumeration order of the listing: the same two matching files yield
different results in the two orders (it does not sort, hence does not pick
the lexicographically smallest match). -/
theorem findCsvLoop_order_dependent :
    findCsvLoop songdo [⟨songdoEnvName, true⟩, ⟨fName, true⟩] = some songdoEnvName ∧
    findCsvLoop songdo [⟨fName, true⟩, ⟨songdoEnvName, true⟩] = some fName ∧
    lexLe fName songdoEnvName = true ∧ fName ≠ songdoEnvName := by decide

/-! ## Claims -/

/-- C1, as stated, is false at this listing: it contains the file
`"송도고_data.csv"` whose NFC name is exactly `key ++ "_data" ++ ".csv"`, yet
`resolve` returns the other matching file `"!송도고_data.csv"`, which sorts
first, not that file. -/
theorem C1_counterexample :
    nfc fName = nfc songdo ++ dataMark ++ csvExt ∧
    resolve ⟨true, [⟨fName, true⟩, ⟨gName, true⟩]⟩ songdo csvExt = .ok (some gName) ∧
    gName ≠ fName :=
  ⟨by decide, by decide, by decide⟩

/-- C1 (amended): an entry is accepted exactly when it is a file with the
requested extension and the key, in either normalization form, is a substring
of its name, in either form; and for every listing containing a file whose
NFC name is `key ++ "_data" ++ ext` — however the on-disk bytes are
normalized — `resolve` returns some matching file, and returns that very
file provided no other accepted entry has a lexicographically smaller
name. -/
theorem C1_resolver_normalization :
    (∀ (key ext : List Nat) (p : DirEntry), acceptedEntry key [] ext p = true ↔
      (p.isFile = true ∧ lowerStr (suffixOf p.name) = lowerStr ext ∧
        (nfc key <:+: nfc p.name ∨ nfd key <:+: nfd p.name ∨
         nfc key <:+: nfd p.name ∨ nfd key <:+: nfc p.name)))
    ∧
    (∀ (dir : DirState) (key ext : List Nat) (f : DirEntry),
      dir.present = true → f ∈ dir.entries → f.isFile = true →
      lowerStr (suffixOf f.name) = lowerStr ext →
      nfc f.name = nfc key ++ dataMark ++ ext →
      (∃ n, resolve dir key ext = .ok (some n) ∧ matches4 key n = true) ∧
      ((∀ e ∈ dir.entries, acceptedEntry key [] ext e = true →
          lexLe f.name e.name = true) →
        resolve dir key ext = .ok (some f.name))) := by
  constructor
  · intro key ext p
    simp only [acceptedEntry, matches4_nil, Bool.and_true, Bool.and_eq_true,
      beq_iff_eq, matches4_iff, and_assoc]
  · intro dir key ext f hpres hmem hfile hsuf hnfc
    have hm4 : matches4 key f.name = true := by
      refine (matches4_iff key f.name).mpr (Or.inl ?_)
      exact (List.IsPrefix.isInfix ⟨dataMark ++ ext, by rw [hnfc, List.append_assoc]⟩)
    have hacc : acceptedEntry key [] ext f = true := by
      simp [acceptedEntry, hfile, hsuf, hm4, matches4_nil]
    constructor
    · obtain ⟨r, hr⟩ := find_total dir key [] ext
      cases r with
      | none =>
        rcases find_none_iff.mp hr with h | h
        · rw [hpres] at h; exact absurd h (by simp)
        · exact absurd hacc (by simp [h f hmem])
      | some n =>
        refine ⟨n, hr, ?_⟩
        obtain ⟨-, ⟨f', -, hacc', rfl⟩, -⟩ := find_some_iff.mp hr
        have := (Bool.and_eq_true _ _).mp hacc'
        have := (Bool.and_eq_true _ _).mp this.1
        exact this.2
    · intro hmin
      exact find_some_iff.mpr ⟨hpres, ⟨f, hmem, hacc, rfl⟩, fun e he hae => hmin e he hae⟩

/-- Witness for the amended C1: a singleton listing holding
`"송도고_data.csv"` stored in decomposed (NFD) bytes still resolves for the
composed key `"송도고"`. -/
theorem C1_witness :
    resolve ⟨true, [⟨fNameNFD, true⟩]⟩ songdo csvExt = .ok (some fNameNFD) :=
  (C1_resolver_normalization.2 ⟨true, [⟨fNameNFD, true⟩]⟩ songdo csvExt
    ⟨fNameNFD, true⟩ rfl (by decide) rfl (by decide) (by decide)).2 (by decide)

/-- C2: the resolver returns `some n` exactly when `n` names an accepted
entry that is lexicographically least among the accepted entries, and its
answer is invariant under reordering of the directory listing — resolution
on an unchanged directory state is deterministic, ties broken by
lexicographically smallest filename. -/
theorem C2_lex_smallest_deterministic :
    (∀ (dir : DirState) (school keyword ext n : List Nat),
      find_file_by_school_and_keyword dir school keyword ext = .ok (some n) ↔
        dir.present = true ∧
        (∃ f ∈ dir.entries, acceptedEntry school keyword ext f = true ∧ f.name = n) ∧
        (∀ f ∈ dir.entries, acceptedEntry school keyword ext f = true →
          lexLe n f.name = true))
    ∧
    (∀ (d1 d2 : DirState) (school keyword ext : List Nat),
      d1.present = d2.present → List.Perm d1.entries d2.entries →
      find_file_by_school_and_keyword d1 school keyword ext =
        find_file_by_school_and_keyword d2 school keyword ext) :=
  ⟨fun _ _ _ _ _ => find_some_iff,
   fun _ _ school keyword ext hp he => find_perm_invariant school keyword ext hp he⟩

/-- Witness for C2: with both `"송도고_data.csv"` and `"!송도고_data.csv"`
matching, the resolver returns the lexicographically smaller name. -/
theorem C2_witness :
    find_file_by_school_and_keyword ⟨true, [⟨fName, true⟩, ⟨gName, true⟩]⟩
      songdo dataMark csvExt = .ok (some gName) :=
  (C2_lex_smallest_deterministic.1 _ _ _ _ _).mpr (by decide)

/-- C3: the loader reads as `utf-8-sig` first (success short-circuits), and
only a decode failure of that first attempt triggers the `cp949` retry — a
missing file or any other error returns `None` without retrying; hence every
file that decodes under `cp949` but not under UTF-8 loads via the
fallback. -/
theorem C3_encoding_fallback :
    (∀ (f : CsvFile) (t : DataFrame), f.utf8sig = .ok t →
      safe_read_csv f = .ok (some t))
    ∧ (∀ (f : CsvFile) (t : DataFrame), f.utf8sig = .error .unicodeDecodeError →
        f.cp949 = .ok t → safe_read_csv f = .ok (some t))
    ∧ (∀ f : CsvFile, f.utf8sig = .error .fileNotFoundError →
        safe_read_csv f = .ok none)
    ∧ (∀ f : CsvFile, f.utf8sig = .error .otherError →
        safe_read_csv f = .ok none) := by
  refine ⟨fun f t h => ?_, fun f t h1 h2 => ?_, fun f h => ?_, fun f h => ?_⟩ <;>
    simp [safe_read_csv, *]

/-- Witness for C3: a file that raises `UnicodeDecodeError` under
`utf-8-sig` and parses under `cp949` loads successfully. -/
theorem C3_witness :
    safe_read_csv ⟨.error .unicodeDecodeError, .ok ⟨[timeName], [[.text [49]]]⟩⟩ =
      .ok (some ⟨[timeName], [[.text [49]]]⟩) :=
  C3_encoding_fallback.2.1 _ _ rfl rfl

/-- C4: when the `time` column parses, `try_parse_time` returns a table
(without warning) whose `time` column is non-decreasing. -/
theorem C4_time_sorted (df : DataFrame) (newCol : List Cell)
    (h1 : dfEmpty df = false) (h2 : timeName ∈ df.columns)
    (h3 : toDatetimeCol (getCol df (timeIdx df)) = some newCol) :
    ∃ df', try_parse_time (some df) = (some df', none) ∧
      List.Sorted cellLeP (getCol df' (timeIdx df')) := by
  refine ⟨⟨(setCol df (timeIdx df) newCol).columns,
           sortRows (timeIdx (setCol df (timeIdx df) newCol))
             (setCol df (timeIdx df) newCol).rows⟩, ?_, ?_⟩
  · simp [try_parse_time, h1, h2, h3]
  · have hs : List.Sorted (rowLeP (timeIdx (setCol df (timeIdx df) newCol)))
        (sortRows (timeIdx (setCol df (timeIdx df) newCol))
          (setCol df (timeIdx df) newCol).rows) :=
      List.sorted_insertionSort _ _
    exact List.pairwise_map.mpr hs

/-- Witness for C4: three out-of-order digit timestamps come back sorted. -/
theorem C4_witness :
    ∃ df', try_parse_time (some ⟨[timeName], [[.text [51]], [.text [49]], [.text [50]]]⟩) =
      (some df', none) ∧ List.Sorted cellLeP (getCol df' (timeIdx df')) :=
  C4_time_sorted _ [.timestamp 3, .timestamp 1, .timestamp 2]
    (by decide) (by decide) (by decide)

/-- C5, as stated, is false on empty tables: this table has no `time`
column, yet `try_parse_time` returns it without flagging any warning,
because the `df.empty` guard returns first. -/
theorem C5_counterexample :
    try_parse_time (some ⟨[[120]], []⟩) = (some ⟨[[120]], []⟩, none) ∧
    (DataFrame.columns ⟨[[120]], ([] : List (List Cell))⟩).contains timeName = false :=
  ⟨by decide, by decide⟩

/-- C5 (amended): for every non-empty loaded table, unparseable `time`
values leave the table unchanged with a parse warning, and an absent `time`
column leaves it unchanged with a missing-column warning; empty (or absent)
tables are passed through without a warning. -/
theorem C5_warn_preserve (df : DataFrame) :
    (dfEmpty df = false → timeName ∉ df.columns →
      try_parse_time (some df) = (some df, some .missing))
    ∧ (dfEmpty df = false → timeName ∈ df.columns →
       toDatetimeCol (getCol df (timeIdx df)) = none →
       try_parse_time (some df) = (some df, some .parseFailed)) := by
  constructor
  · intro h1 h2
    simp [try_parse_time, h1, h2]
  · intro h1 h2 h3
    simp [try_parse_time, h1, h2, h3]

/-- Witness for the amended C5: a table without `time` warns `missing`; a
table whose `time` cell `"ab"` cannot parse warns `parseFailed`, both
returned unchanged. -/
theorem C5_witness :
    try_parse_time (some ⟨[[120]], [[.text [97]]]⟩) =
      (some ⟨[[120]], [[.text [97]]]⟩, some .missing) ∧
    try_parse_time (some ⟨[timeName], [[.text [97, 98]]]⟩) =
      (some ⟨[timeName], [[.text [97, 98]]]⟩, some .parseFailed) :=
  ⟨(C5_warn_preserve _).1 (by decide) (by decide),
   (C5_warn_preserve _).2 (by decide) (by decide) (by decide)⟩

/-- C6: when the data directory does not exist the resolver returns `None`,
and in every state it returns a value — no exception ever escapes it. -/
theorem C6_missing_dir (dir : DirState) (school keyword ext : List Nat) :
    (dir.present = false →
      find_file_by_school_and_keyword dir school keyword ext = .ok none)
    ∧ ∃ r, find_file_by_school_and_keyword dir school keyword ext = .ok r := by
  refine ⟨fun h => ?_, find_total dir school keyword ext⟩
  simp [find_file_by_school_and_keyword, h]

/-- Witness for C6 at a concrete absent directory. -/
theorem C6_witness :
    find_file_by_school_and_keyword ⟨false, []⟩ songdo envKeyword csvExt = .ok none :=
  (C6_missing_dir ⟨false, []⟩ songdo envKeyword csvExt).1 rfl

/-- C7: when no entry's name matches the key under any of the four
normalization pairings, `resolve` returns `None` — not an exception. -/
theorem C7_no_match (dir : DirState) (key ext : List Nat)
    (h : ∀ f ∈ dir.entries, matches4 key f.name = false) :
    resolve dir key ext = .ok none := by
  refine find_none_iff.mpr (Or.inr fun f hf => ?_)
  simp [acceptedEntry, h f hf]

/-- Witness for C7: a listing holding only `"하늘고_환경데이터.csv"` yields
`None` for the key `"동산고"`. -/
theorem C7_witness :
    resolve ⟨true, [⟨haneulEnvName, true⟩]⟩ dongsan csvExt = .ok none :=
  C7_no_match ⟨true, [⟨haneulEnvName, true⟩]⟩ dongsan csvExt (by decide)

/-- C8, as stated, is false: the main resolver lowercases both suffixes, so
`"송도고_환경데이터.CSV"` — whose extension differs from the requested
`".csv"` only in case — is accepted and returned rather than discarded. -/
theorem C8_counterexample :
    find_file_by_school_and_keyword ⟨true, [⟨capName, true⟩]⟩ songdo envKeyword csvExt
      = .ok (some capName) ∧ suffixOf capName ≠ csvExt :=
  ⟨by decide, by decide⟩

/-- C8 (amended): the main-revision resolver compares extensions
case-insensitively — two requested extensions equal after lowercasing are
interchangeable — while the `(test2)` revision compares the suffix to
`".csv"` exactly, so entries whose suffix differs at all (including only in
case) are discarded. -/
theorem C8_extension_case :
    (∀ (dir : DirState) (school keyword e1 e2 : List Nat), lowerStr e1 = lowerStr e2 →
      find_file_by_school_and_keyword dir school keyword e1 =
        find_file_by_school_and_keyword dir school keyword e2)
    ∧ (∀ (dir : DirState) (school : List Nat),
        (∀ f ∈ dir.entries, suffixOf f.name ≠ csvExt) →
        load_school_env_data dir school = .ok none) := by
  constructor
  · intro dir school keyword e1 e2 h
    simp only [find_file_by_school_and_keyword, findLoop_lower_ext h]
  · intro dir school h
    rcases hp : dir.present with _ | _
    · simp [load_school_env_data, hp]
    · simp [load_school_env_data, hp, listdir, Except.map, findCsvLoop_none school dir.entries h]

/-- Witness for the amended C8: requesting `".CSV"` and `".csv"` from the
main resolver gives identical results, and the `(test2)` loader rejects the
`.CSV`-suffixed file outright. -/
theorem C8_witness :
    find_file_by_school_and_keyword ⟨true, [⟨capName, true⟩]⟩ songdo envKeyword
        [46, 67, 83, 86] =
      find_file_by_school_and_keyword ⟨true, [⟨capName, true⟩]⟩ songdo envKeyword csvExt ∧
    load_school_env_data ⟨true, [⟨capName, true⟩]⟩ songdo = .ok none :=
  ⟨C8_extension_case.1 _ _ _ _ _ (by decide), C8_extension_case.2 _ _ (by decide)⟩

/-- C9: the delimited-text loader is total at its interface: for every file,
whatever the two decode attempts do, it returns a value — a table or `None` —
and never propagates an exception. -/
theorem C9_loader_total (f : CsvFile) : ∃ r, safe_read_csv f = .ok r := by
  obtain ⟨u, c⟩ := f
  cases u with
  | ok t => exact ⟨some t, rfl⟩
  | error e =>
    cases e with
    | unicodeDecodeError =>
      cases c with
      | ok t => exact ⟨some t, rfl⟩
      | error e2 => exact ⟨none, rfl⟩
    | fileNotFoundError => exact ⟨none, rfl⟩
    | otherError => exact ⟨none, rfl⟩

/-- C10: the main resolver is conjunctive: any returned name passes the
four-way normalization test for BOTH the school key and the keyword, so an
entry matching only one of them is never returned. -/
theorem C10_conjunctive_match (dir : DirState) (school keyword ext n : List Nat)
    (h : find_file_by_school_and_keyword dir school keyword ext = .ok (some n)) :
    matches4 school n = true ∧ matches4 keyword n = true := by
  obtain ⟨-, ⟨f, -, hacc, rfl⟩, -⟩ := find_some_iff.mp h
  have h1 := (Bool.and_eq_true _ _).mp hacc
  have h2 := (Bool.and_eq_true _ _).mp h1.1
  exact ⟨h2.2, h1.2⟩

/-- Witness for C10 on the listing holding `"송도고_환경데이터.csv"`. -/
theorem C10_witness :
    matches4 songdo songdoEnvName = true ∧ matches4 envKeyword songdoEnvName = true :=
  C10_conjunctive_match ⟨true, [⟨songdoEnvName, true⟩]⟩ songdo envKeyword csvExt
    songdoEnvName (by decide)

end PolarPlant
